import Mathlib

/-
Verification development for the SQLite GUI editor
(`Advanced_database_editor.py`): a shallow embedding of the
editable-table engine — row values, the single-table store, the
undo/redo command log (`UndoRedoManager`), cell editing
(`SQLiteTableModel.setData`), row insertion (`MainWindow.add_row`),
model construction (`SQLiteTableModel.__init__`), database opening
(`MainWindow.open_db`), the drop-column rebuild
(`MainWindow.delete_column`) and the identifier-interpolating DDL
helpers (`MainWindow.add_column`, `MainWindow.add_table`) — together
with theorems settling the specification's testable properties.

Modelling conventions: Python `None`/SQL NULL is `SQLValue.null`;
a row (a `sqlite3.Row` turned into a `dict`) is an association list
from column name to value, with first-occurrence lookup and update;
REAL values are rationals; statement execution is total (storage
failures such as lock contention are outside the model); the store
holds the single table the engine has loaded, with the implicit
rowid materialized as a row key exactly as `SELECT rowid, *` does.
-/

set_option autoImplicit false

namespace ADE

/-- Cell values: the closed sum {null, integer, real, text} that the
editor's rows carry (Python `None` / `int` / `float` / `str`). A real
is kept exactly as the decimal `num / 10 ^ scale` that the edited
string denoted. -/
inductive SQLValue where
  | null
  | intV (i : Int)
  | realV (num : Int) (scale : Nat)
  | textV (s : String)
  deriving DecidableEq, Repr

/-- Numeric equality of the decimals `a / 10 ^ sa` and `b / 10 ^ sb`,
by cross multiplication. -/
def numEq (a : Int) (sa : Nat) (b : Int) (sb : Nat) : Bool :=
  a * (10 : Int) ^ sb == b * (10 : Int) ^ sa

/-- One materialized row: a mapping from column name to value, as the
model's `dict(r)` snapshot rows. -/
abbrev Row := List (String × SQLValue)

/-- Lookup in an association list by key, first occurrence
(Python `dict` access / `dict.get`). -/
def alistGet {α : Type} (l : List (String × α)) (k : String) : Option α :=
  (l.find? (fun p => p.1 == k)).map (fun p => p.2)

/-- Value of a column in a row; a missing key reads as null, exactly as
Python `row.get(col)` yields `None`. -/
def rowGet (r : Row) (c : String) : SQLValue :=
  (alistGet r c).getD SQLValue.null

/-- Whether the row's dict has the column key at all. -/
def rowHasKey (r : Row) (c : String) : Bool :=
  (alistGet r c).isSome

/-- Write a column of a row (Python `row[col] = value`): replace the
first occurrence, or append the key when absent. -/
def rowSet : Row → String → SQLValue → Row
  | [], c, v => [(c, v)]
  | (k, w) :: t, c, v =>
      if k == c then (c, v) :: t else (k, w) :: rowSet t c v

/-- SQL `=` comparison used by the generated `WHERE c=?` predicates:
NULL compares false against everything, integers and reals compare
numerically, text compares by string equality. -/
def sqlEq : SQLValue → SQLValue → Bool
  | SQLValue.null, _ => false
  | _, SQLValue.null => false
  | SQLValue.intV a, SQLValue.intV b => a == b
  | SQLValue.intV a, SQLValue.realV b sb => numEq a 0 b sb
  | SQLValue.realV a sa, SQLValue.intV b => numEq a sa b 0
  | SQLValue.realV a sa, SQLValue.realV b sb => numEq a sa b sb
  | SQLValue.textV a, SQLValue.textV b => a == b
  | _, _ => false

/-- Python `==` on cell values as used by the `value == old_value`
no-op check in `setData`: `None == None` is true, numbers compare
numerically across int/float, strings by equality. -/
def pyEq : SQLValue → SQLValue → Bool
  | SQLValue.null, SQLValue.null => true
  | SQLValue.intV a, SQLValue.intV b => a == b
  | SQLValue.intV a, SQLValue.realV b sb => numEq a 0 b sb
  | SQLValue.realV a sa, SQLValue.intV b => numEq a sa b 0
  | SQLValue.realV a sa, SQLValue.realV b sb => numEq a sa b sb
  | SQLValue.textV a, SQLValue.textV b => a == b
  | _, _ => false

/-- The conjunction `c1=? AND c2=? AND ...` of the generated WHERE
clause, bound positionally to the identity values. -/
def rowMatches (r : Row) : List String → List SQLValue → Bool
  | [], _ => true
  | _ :: _, [] => true
  | c :: cs, v :: vs => sqlEq (rowGet r c) v && rowMatches r cs vs

/-- The statements the engine generates: `UPDATE t SET col=? WHERE
id1=? AND ...`, `DELETE FROM t WHERE id1=? AND ...`, and
`INSERT INTO t DEFAULT VALUES`. Values are always bound as
parameters, never part of the statement. -/
inductive Stmt where
  | update (table col : String) (idCols : List String)
  | delete (table : String) (idCols : List String)
  | insertDefault (table : String)
  deriving DecidableEq, Repr

/-- The store's single loaded table: declared (non-rowid) column names
and the current rows (each row carrying its "rowid" key when the
table is a rowid table). -/
structure TableData where
  cols : List String
  rows : List Row
  deriving DecidableEq, Repr

/-- Largest integer rowid present (0 when none), used by the
store's rowid allocator. -/
def maxRowid (rows : List Row) : Int :=
  rows.foldr
    (fun r acc =>
      max acc (match rowGet r "rowid" with
               | SQLValue.intV k => k
               | _ => 0))
    0

/-- The rowid SQLite allocates for the next `INSERT ... DEFAULT VALUES`
into a rowid table: one past the current maximum. -/
def nextRowid (rows : List Row) : Int := maxRowid rows + 1

/-- Parameterized statement execution against the loaded table
(`DatabaseManager.execute` on the engine's statements): an update
rewrites the addressed column of every matching row, a delete removes
every matching row, a default-values insert appends a fresh row whose
rowid is newly allocated and whose declared columns are null. -/
def runStmt (td : TableData) (s : Stmt) (params : List SQLValue) : TableData :=
  match s with
  | Stmt.update _ col idCols =>
      match params with
      | v :: idVals =>
          let rows' := td.rows.map
            (fun r => if rowMatches r idCols idVals then rowSet r col v else r)
          { td with rows := rows' }
      | [] => td
  | Stmt.delete _ idCols =>
      { td with rows := td.rows.filter (fun r => !(rowMatches r idCols params)) }
  | Stmt.insertDefault _ =>
      let fresh := ("rowid", SQLValue.intV (nextRowid td.rows)) ::
        td.cols.map (fun c => (c, SQLValue.null))
      { td with rows := td.rows ++ [fresh] }

/-- One reversible operation as pushed by `UndoRedoManager.push`:
`(undo_sql, redo_sql, undo_params, redo_params)`. -/
structure Command where
  undo_sql : Stmt
  redo_sql : Stmt
  undo_params : List SQLValue
  redo_params : List SQLValue
  deriving DecidableEq, Repr

/-- Combined state of the loaded table model and its collaborators:
the `SQLiteTableModel` fields (`table`, `has_rowid`, `pk_columns`,
`schema`, `headers`, `rows`), the backing store for that table, and
the `UndoRedoManager` stacks (most recent last, as Python lists). -/
structure EngineState where
  table : String
  has_rowid : Bool
  pk_columns : List String
  schema : List (String × String)
  headers : List String
  rows : List Row
  db : TableData
  undo_stack : List Command
  redo_stack : List Command
  deriving DecidableEq, Repr

/-- Identity columns used for addressing a row, line 239 of the
source: `['rowid'] if self.has_rowid else self.pk_columns`. -/
def idColsOf (st : EngineState) : List String :=
  if st.has_rowid then ["rowid"] else st.pk_columns

/-- Source `UndoRedoManager.push`: append the command to the undo stack and
clear the redo stack. -/
def pushCmd (st : EngineState) (c : Command) : EngineState :=
  { st with undo_stack := st.undo_stack ++ [c], redo_stack := [] }

/-- Source `UndoRedoManager.undo`: with an empty undo stack only log
"Nothing to undo"; otherwise pop the top command, execute its undo
statement against the store, and push the command onto the redo
stack. -/
def undoStep (st : EngineState) : EngineState :=
  match st.undo_stack.getLast? with
  | none => st
  | some cmd =>
      { st with
        undo_stack := st.undo_stack.dropLast,
        db := runStmt st.db cmd.undo_sql cmd.undo_params,
        redo_stack := st.redo_stack ++ [cmd] }

/-- Source `UndoRedoManager.redo`: with an empty redo stack only log
"Nothing to redo"; otherwise pop the top command, execute its redo
statement against the store, and push the command onto the undo
stack. -/
def redoStep (st : EngineState) : EngineState :=
  match st.redo_stack.getLast? with
  | none => st
  | some cmd =>
      { st with
        redo_stack := st.redo_stack.dropLast,
        db := runStmt st.db cmd.redo_sql cmd.redo_params,
        undo_stack := st.undo_stack ++ [cmd] }

/-- Whether the second list is an initial segment of the first. -/
def leadsWith : List Char → List Char → Bool
  | _, [] => true
  | [], _ :: _ => false
  | a :: as, b :: bs => a == b && leadsWith as bs

/-- Whether the needle occurs contiguously anywhere in the haystack. -/
def hasSub (hay needle : List Char) : Bool :=
  match hay with
  | [] => leadsWith [] needle
  | _ :: t => leadsWith hay needle || hasSub t needle

/-- Python's `in` operator on strings (substring containment), as in
`"INTEGER" in col_type`. -/
def strContains (hay needle : String) : Bool :=
  hasSub hay.toList needle.toList

/-- Python `str.upper()` for the ASCII strings the editor compares. -/
def strUpper (s : String) : String :=
  String.mk (s.toList.map Char.toUpper)

/-- Python `str.strip()`: drop whitespace from both ends. -/
def trimChars (cs : List Char) : List Char :=
  ((cs.dropWhile Char.isWhitespace).reverse.dropWhile Char.isWhitespace).reverse

/-- Python truthiness of `name.strip()`: non-blank after stripping. -/
def strBlank (s : String) : Bool :=
  (trimChars s.toList).isEmpty

/-- Digits of a numeral to the natural number they denote. -/
def digitsToNat (ds : List Char) : Nat :=
  ds.foldl (fun a c => a * 10 + (c.toNat - 48)) 0

/-- Python `int(string)`: optional surrounding whitespace, an optional
sign, then a non-empty digit run. Underscore separators are not
modelled. -/
def pyInt (s : String) : Option Int :=
  let t := trimChars s.toList
  let signed : Bool × List Char :=
    match t with
    | '-' :: r => (true, r)
    | '+' :: r => (false, r)
    | r => (false, r)
  let ds := signed.2
  if !ds.isEmpty && ds.all Char.isDigit then
    some (if signed.1 then -(digitsToNat ds : Int) else (digitsToNat ds : Int))
  else none

/-- Split a character list at the first exponent marker. -/
def splitAtExp : List Char → (List Char × Option (List Char))
  | [] => ([], none)
  | c :: r =>
      if c == 'e' || c == 'E' then ([], some r)
      else
        let p := splitAtExp r
        (c :: p.1, p.2)

/-- Split a character list at the first decimal point. -/
def splitAtDot : List Char → (List Char × Option (List Char))
  | [] => ([], none)
  | c :: r =>
      if c == '.' then ([], some r)
      else
        let p := splitAtDot r
        (c :: p.1, p.2)

/-- Mantissa of a float literal: `digits`, `digits.digits`, `.digits`
or `digits.` (with at least one digit overall), as the decimal
`num / 10 ^ scale`. -/
def parseMantissa (cs : List Char) : Option (Int × Nat) :=
  let p := splitAtDot cs
  match p.2 with
  | none =>
      if !p.1.isEmpty && p.1.all Char.isDigit then
        some ((digitsToNat p.1 : Int), 0)
      else none
  | some frac =>
      if (!p.1.isEmpty || !frac.isEmpty) &&
          p.1.all Char.isDigit && frac.all Char.isDigit then
        some ((digitsToNat (p.1 ++ frac) : Int), frac.length)
      else none

/-- Python `float(string)` on finite decimal literals: optional
whitespace and sign, a mantissa, an optional signed exponent; the
result is the exact decimal `num / 10 ^ scale`. Special tokens such
as `inf` and `nan` are not modelled. -/
def pyFloat (s : String) : Option (Int × Nat) :=
  let t := trimChars s.toList
  let signed : Bool × List Char :=
    match t with
    | '-' :: r => (true, r)
    | '+' :: r => (false, r)
    | r => (false, r)
  let parts := splitAtExp signed.2
  let withExp : Option (Int × Nat) :=
    match parseMantissa parts.1, parts.2 with
    | some m, none => some m
    | some m, some ex =>
        let esigned : Bool × List Char :=
          match ex with
          | '-' :: r => (true, r)
          | '+' :: r => (false, r)
          | r => (false, r)
        if !esigned.2.isEmpty && esigned.2.all Char.isDigit then
          let e := digitsToNat esigned.2
          some (if esigned.1 then (m.1, m.2 + e) else (m.1 * (10 : Int) ^ e, m.2))
        else none
    | none, _ => none
  withExp.map (fun m => if signed.1 then (-m.1, m.2) else m)

/-- Declared type of a column as `setData` reads it:
`self.schema.get(col, "").upper()`. -/
def colTypeOf (st : EngineState) (col : String) : String :=
  strUpper ((alistGet st.schema col).getD "")

/-- Coercion of the edited string by declared type affinity, lines
243-254 of the source: a case-insensitive `NULL` (or the `<NULL>`
display form) becomes the null value; integer-affinity columns parse
by `int`, real-affinity columns by `float`, everything else stays
text; a parse failure is the `TypeMismatch` outcome (`none`). -/
def coerce (ctype value : String) : Option SQLValue :=
  if strUpper value == "<NULL>" || strUpper value == "NULL" then
    some SQLValue.null
  else if strContains ctype "INTEGER" || strContains ctype "INT" then
    match pyInt value with
    | some n => some (SQLValue.intV n)
    | none => none
  else if strContains ctype "REAL" || strContains ctype "FLOAT" then
    match pyFloat value with
    | some q => some (SQLValue.realV q.1 q.2)
    | none => none
  else some (SQLValue.textV value)

/-- Everything `setData` decides before touching the store: the edited
column and row, the identity columns and their values, the old and
the coerced new value. -/
structure EditPlan where
  rowIdx : Nat
  col : String
  row : Row
  idCols : List String
  idVals : List SQLValue
  old : SQLValue
  newv : SQLValue
  deriving DecidableEq, Repr

/-- Validation phase of `SQLiteTableModel.setData` (lines 233-256):
resolve the column and row from the index, reject edits of identity
columns, coerce the value by type affinity, and suppress no-op edits;
`none` is the returns-false path with no side effect. -/
def planEdit (st : EngineState) (i j : Nat) (value : String) : Option EditPlan :=
  (st.headers.get? j).bind fun col =>
  (st.rows.get? i).bind fun row =>
  if (st.has_rowid && col == "rowid") || st.pk_columns.contains col then none
  else
    let idCols := idColsOf st
    let idVals := idCols.map (rowGet row)
    let old := rowGet row col
    (coerce (colTypeOf st col) value).bind fun newv =>
    if pyEq newv old then none
    else some ⟨i, col, row, idCols, idVals, old, newv⟩

/-- Mutation phase of `SQLiteTableModel.setData` (lines 257-272):
execute the parameterized UPDATE, push the command (clearing the redo
stack), and patch the single snapshot cell. -/
def applyEdit (st : EngineState) (p : EditPlan) : EngineState :=
  let stmt := Stmt.update st.table p.col p.idCols
  let cmd : Command :=
    ⟨stmt, stmt, p.old :: p.idVals, p.newv :: p.idVals⟩
  { st with
    db := runStmt st.db stmt (p.newv :: p.idVals),
    undo_stack := st.undo_stack ++ [cmd],
    redo_stack := [],
    rows := st.rows.set p.rowIdx (rowSet p.row p.col p.newv) }

/-- Source `SQLiteTableModel.setData`: the returned Boolean and the resulting
state. Storage execution is modelled as always succeeding. -/
def setData (st : EngineState) (i j : Nat) (value : String) : Bool × EngineState :=
  match planEdit st i j value with
  | none => (false, st)
  | some p => (true, applyEdit st p)

/-- Source `SQLiteTableModel.refresh`: re-read headers and rows from the
store (`SELECT rowid, *` on a rowid table, `SELECT *` otherwise). -/
def refreshSt (st : EngineState) : EngineState :=
  { st with
    headers := (if st.has_rowid then ["rowid"] else []) ++ st.db.cols,
    rows := st.db.rows }

/-- Source `MainWindow.add_row`: insert via `DEFAULT VALUES`; on a rowid
table capture `last_insert_rowid()` immediately and push a command
whose undo is a delete keyed by that captured rowid and whose redo is
another default-values insert; then refresh. -/
def addRow (st : EngineState) : EngineState :=
  let db1 := runStmt st.db (Stmt.insertDefault st.table) []
  if st.has_rowid then
    let rid := nextRowid st.db.rows
    let cmd : Command :=
      ⟨Stmt.delete st.table ["rowid"], Stmt.insertDefault st.table,
        [SQLValue.intV rid], []⟩
    refreshSt (pushCmd { st with db := db1 } cmd)
  else
    refreshSt { st with db := db1 }

/-- Identity resolution inside `SQLiteTableModel.__init__` (lines
193-197): with neither a rowid nor declared primary-key columns the
constructor raises `ValueError("... has no rowid or primary key;
cannot edit safely")`; otherwise the model is built and addresses
rows by rowid when present, else by the primary-key columns. -/
def modelInit (has_rowid : Bool) (pk_columns : List String) :
    Except String (List String) :=
  if !has_rowid && pk_columns.isEmpty then
    Except.error "has no rowid or primary key; cannot edit safely"
  else
    Except.ok (if has_rowid then ["rowid"] else pk_columns)

/-- Application-level state touched by `MainWindow.open_db`: the
connected database, the listed tables, and the shared
`UndoRedoManager` stacks. -/
structure AppState where
  dbPath : Option String
  tableNames : List String
  undo_stack : List Command
  redo_stack : List Command
  deriving DecidableEq, Repr

/-- Source `MainWindow.open_db` (lines 456-463): connect to the chosen file
and repopulate the table list. No other field is touched — in
particular the undo/redo stacks are left as they were. -/
def open_db (st : AppState) (path : String) (tables : List String) : AppState :=
  { st with dbPath := some path, tableNames := tables }

/-- One table as the schema-level operations see it: declared columns
with their types, and the rows. -/
structure SchemaTable where
  cols : List (String × String)
  rows : List Row
  deriving DecidableEq, Repr

/-- A database as a name-to-table association list. -/
abbrev SchemaDb := List (String × SchemaTable)

/-- Lookup of a table by name. -/
def lookupTable (db : SchemaDb) (t : String) : Option SchemaTable :=
  alistGet db t

/-- Projection of a row onto the kept columns, as
`INSERT INTO temp SELECT c1, c2, ... FROM t` copies it. -/
def projectRow (cols : List String) (r : Row) : Row :=
  cols.map (fun c => (c, rowGet r c))

/-- Statement `DROP TABLE t`. -/
def dropTableDb (db : SchemaDb) (t : String) : SchemaDb :=
  db.filter (fun p => !(p.1 == t))

/-- Statement `ALTER TABLE old RENAME TO new`. -/
def renameTableDb (db : SchemaDb) (old new : String) : SchemaDb :=
  db.map (fun p => if p.1 == old then (new, p.2) else p)

/-- Replace the rows of the named table. -/
def setTableRows (db : SchemaDb) (t : String) (rows : List Row) : SchemaDb :=
  db.map (fun p => if p.1 == t then (t, { p.2 with rows := rows }) else p)

/-- The four storage steps of the drop-column rebuild, in source
order: create the temporary table, copy the projected rows, drop the
original, rename the temporary into place. -/
inductive DropStep where
  | createTemp
  | copyRows
  | dropOld
  | renameTemp
  deriving DecidableEq, Repr

/-- Source `MainWindow.delete_column` (lines 541-560) with an injected
failure point: the failing statement raises, the surrounding `except`
only logs, and the database keeps whatever the already-completed
steps produced — there is no rollback. `failAt = none` is the
all-steps-succeed run. -/
def delete_column (db : SchemaDb) (table col : String)
    (failAt : Option DropStep) : SchemaDb :=
  match lookupTable db table with
  | none => db
  | some td =>
      let columns := td.cols.filter (fun p => !(p.1 == col))
      if columns.isEmpty then db
      else
        let temp := table ++ "_temp"
        if failAt == some DropStep.createTemp then db
        else
          let db1 := db ++ [(temp, ⟨columns, []⟩)]
          if failAt == some DropStep.copyRows then db1
          else
            let db2 := setTableRows db1 temp
              (td.rows.map (projectRow (columns.map (fun p => p.1))))
            if failAt == some DropStep.dropOld then db2
            else
              let db3 := dropTableDb db2 table
              if failAt == some DropStep.renameTemp then db3
              else renameTableDb db3 temp table

/-- Acceptance check of `MainWindow.add_column` (lines 531-536): the
only validation applied to the user-typed column name and type before
interpolation is that neither is blank. -/
def add_column_guard (name coltype : String) : Bool :=
  !(strBlank name) && !(strBlank coltype)

/-- Statement text built by `MainWindow.add_column` (line 537):
`f"ALTER TABLE {table} ADD COLUMN {name} {coltype}"`. -/
def add_column_sql (table name coltype : String) : String :=
  "ALTER TABLE " ++ table ++ " ADD COLUMN " ++ name ++ " " ++ coltype

/-- Acceptance check of `MainWindow.add_table` (lines 562-564): any
non-blank name is accepted. -/
def add_table_guard (name : String) : Bool :=
  !(strBlank name)

/-- Statement text built by `MainWindow.add_table` (line 565):
`f"CREATE TABLE {name} (id INTEGER PRIMARY KEY)"`. -/
def add_table_sql (name : String) : String :=
  "CREATE TABLE " ++ name ++ " (id INTEGER PRIMARY KEY)"

/-- Representative SQL reserved words for the allow-list. -/
def sqlReservedWords : List String :=
  ["SELECT", "INSERT", "UPDATE", "DELETE", "DROP", "CREATE", "TABLE",
   "WHERE", "FROM", "ALTER", "AND", "OR", "NOT", "NULL", "PRIMARY",
   "KEY", "INDEX", "JOIN", "UNION", "ORDER", "GROUP", "BY"]

/-- Modelled from the spec: the strict allow-list pattern the spec
requires for interpolated identifiers — non-empty, alphanumeric plus
underscore only, and not a reserved word. No such validation exists
anywhere in the source. -/
def spec_valid_identifier (s : String) : Bool :=
  !(s == "") &&
  s.toList.all (fun ch => ch.isAlphanum || ch == '_') &&
  !(sqlReservedWords.contains (strUpper s))

theorem alistGet_nil {α : Type} (c : String) :
    alistGet ([] : List (String × α)) c = none := rfl

theorem alistGet_cons_eq {α : Type} (k c : String) (w : α)
    (t : List (String × α)) (h : k = c) :
    alistGet ((k, w) :: t) c = some w := by
  unfold alistGet
  rw [List.find?_cons_of_pos _ (by simpa using h)]
  rfl

theorem alistGet_cons_ne {α : Type} (k c : String) (w : α)
    (t : List (String × α)) (h : k ≠ c) :
    alistGet ((k, w) :: t) c = alistGet t c := by
  unfold alistGet
  rw [List.find?_cons_of_neg _ (by simpa using h)]

theorem rowGet_rowSet_self (r : Row) (c : String) (v : SQLValue) :
    rowGet (rowSet r c v) c = v := by
  induction r with
  | nil => simp [rowSet, rowGet, alistGet_cons_eq c c v [] rfl]
  | cons p t ih =>
      obtain ⟨k, w⟩ := p
      by_cases h : k = c
      · subst h
        simp [rowSet, rowGet, alistGet_cons_eq k k v t rfl]
      · simp only [rowSet, beq_iff_eq, h, if_false]
        simpa [rowGet, alistGet_cons_ne k c w (rowSet t c v) h] using ih

theorem rowGet_rowSet_ne (r : Row) (c c' : String) (v : SQLValue)
    (h : c ≠ c') : rowGet (rowSet r c v) c' = rowGet r c' := by
  induction r with
  | nil => simp [rowSet, rowGet, alistGet_nil, alistGet_cons_ne c c' v [] h]
  | cons p t ih =>
      obtain ⟨k, w⟩ := p
      by_cases hk : k = c
      · subst hk
        simp [rowSet, rowGet, alistGet_cons_ne k c' v t (fun hh => h (hh ▸ rfl)),
          alistGet_cons_ne k c' w t (fun hh => h (hh ▸ rfl))]
      · by_cases hk' : k = c'
        · subst hk'
          simp [rowSet, hk, rowGet, alistGet_cons_eq k k w (rowSet t c v) rfl,
            alistGet_cons_eq k k w t rfl]
        · simp only [rowSet, beq_iff_eq, hk, if_false]
          simpa [rowGet, alistGet_cons_ne k c' w (rowSet t c v) hk',
            alistGet_cons_ne k c' w t hk'] using ih

theorem rowSet_rowSet (r : Row) (c : String) (a b : SQLValue) :
    rowSet (rowSet r c a) c b = rowSet r c b := by
  induction r with
  | nil => simp [rowSet]
  | cons p t ih =>
      obtain ⟨k, w⟩ := p
      by_cases h : k = c
      · subst h
        simp [rowSet]
      · simp [rowSet, h, ih]

theorem rowSet_get_self (r : Row) (c : String)
    (h : rowHasKey r c = true) : rowSet r c (rowGet r c) = r := by
  induction r with
  | nil => simp [rowHasKey, alistGet_nil] at h
  | cons p t ih =>
      obtain ⟨k, w⟩ := p
      by_cases hk : k = c
      · subst hk
        simp [rowSet, rowGet, alistGet_cons_eq k k w t rfl]
      · have ht : rowHasKey t c = true := by
          simpa [rowHasKey, alistGet_cons_ne k c w t hk] using h
        have hg : rowGet ((k, w) :: t) c = rowGet t c := by
          simp [rowGet, alistGet_cons_ne k c w t hk]
        simp [rowSet, hk, hg, ih ht]

theorem rowMatches_rowSet (r : Row) (c : String) (v : SQLValue)
    (idCols : List String) (idVals : List SQLValue)
    (h : c ∉ idCols) :
    rowMatches (rowSet r c v) idCols idVals = rowMatches r idCols idVals := by
  induction idCols generalizing idVals with
  | nil => simp [rowMatches]
  | cons c' cs ih =>
      cases idVals with
      | nil => simp [rowMatches]
      | cons w ws =>
          have hc : c ≠ c' := fun hcc => h (hcc ▸ List.mem_cons_self c' cs)
          have hcs : c ∉ cs := fun hm => h (List.mem_cons_of_mem c' hm)
          simp [rowMatches, rowGet_rowSet_ne r c c' v hc, ih ws hcs]

/-- Cancellation law for the generated UPDATE statements: writing a
new value into every row matching the identity predicate and then
writing back the old value restores the original rows, provided the
edited column is not an identity column and every matching row indeed
held the old value under an existing key. -/
theorem update_cancel (td : TableData) (tbl col : String)
    (idCols : List String) (idVals : List SQLValue)
    (vold vnew : SQLValue)
    (hcol : col ∉ idCols)
    (hold : ∀ r ∈ td.rows, rowMatches r idCols idVals = true → rowGet r col = vold)
    (hkey : ∀ r ∈ td.rows, rowMatches r idCols idVals = true → rowHasKey r col = true) :
    runStmt (runStmt td (Stmt.update tbl col idCols) (vnew :: idVals))
      (Stmt.update tbl col idCols) (vold :: idVals) = td := by
  cases td with
  | mk cols rows =>
      simp only [runStmt, List.map_map]
      congr 1
      have : ∀ r ∈ rows,
          ((fun r => if rowMatches r idCols idVals then rowSet r col vold else r) ∘
           (fun r => if rowMatches r idCols idVals then rowSet r col vnew else r)) r = r := by
        intro r hr
        by_cases hm : rowMatches r idCols idVals = true
        · have hv := hold r hr hm
          have hk := hkey r hr hm
          have hm' : rowMatches (rowSet r col vnew) idCols idVals = true := by
            rw [rowMatches_rowSet r col vnew idCols idVals hcol]; exact hm
          simp only [Function.comp_apply, hm, if_true, hm', rowSet_rowSet]
          calc rowSet r col vold = rowSet r col (rowGet r col) := by rw [hv]
            _ = r := rowSet_get_self r col hk
        · simp only [Function.comp_apply]
          rw [if_neg hm, if_neg hm]
      calc rows.map _ = rows.map id := List.map_congr_left this
        _ = rows := List.map_id rows

/-- Inversion of the validation phase: everything that must have held
for `setData` to reach the mutation phase, and the exact contents of
the resulting plan. -/
theorem planEdit_some (st : EngineState) (i j : Nat) (value : String)
    (p : EditPlan) (h : planEdit st i j value = some p) :
    st.headers.get? j = some p.col ∧
    st.rows.get? i = some p.row ∧
    ((st.has_rowid && p.col == "rowid") || st.pk_columns.contains p.col) = false ∧
    p.idCols = idColsOf st ∧
    p.idVals = (idColsOf st).map (rowGet p.row) ∧
    p.old = rowGet p.row p.col ∧
    coerce (colTypeOf st p.col) value = some p.newv ∧
    pyEq p.newv p.old = false ∧
    p.rowIdx = i := by
  unfold planEdit at h
  cases hc : st.headers.get? j with
  | none => rw [hc] at h; simp at h
  | some col =>
      rw [hc] at h
      cases hr : st.rows.get? i with
      | none => rw [hr] at h; simp at h
      | some row =>
          rw [hr] at h
          simp only [Option.some_bind] at h
          by_cases hg :
              ((st.has_rowid && col == "rowid") || st.pk_columns.contains col) = true
          · rw [if_pos hg] at h; simp at h
          · rw [if_neg hg] at h
            cases hco : coerce (colTypeOf st col) value with
            | none => rw [hco] at h; simp at h
            | some nv =>
                rw [hco] at h
                simp only [Option.some_bind] at h
                by_cases hpe : pyEq nv (rowGet row col) = true
                · rw [if_pos hpe] at h; simp at h
                · rw [if_neg hpe] at h
                  have hp := (Option.some.injEq _ _).mp h
                  subst hp
                  refine ⟨rfl, rfl, by simpa using hg, rfl, rfl, rfl, hco,
                    by simpa using hpe, rfl⟩

/-- Inversion of a successful `setData`: the plan existed and the
resulting state is its application. -/
theorem setData_true (st : EngineState) (i j : Nat) (value : String)
    (st' : EngineState) (h : setData st i j value = (true, st')) :
    ∃ p, planEdit st i j value = some p ∧ st' = applyEdit st p := by
  unfold setData at h
  cases hp : planEdit st i j value with
  | none => rw [hp] at h; simp at h
  | some p =>
      rw [hp] at h
      exact ⟨p, rfl, ((Prod.mk.injEq _ _ _ _).mp h).2.symm⟩

/-- The edited column is never one of the identity columns used in
the generated WHERE clause. -/
theorem planEdit_col_not_id (st : EngineState) (i j : Nat) (value : String)
    (p : EditPlan) (h : planEdit st i j value = some p) :
    p.col ∉ idColsOf st := by
  obtain ⟨-, -, hg, -, -, -, -, -, -⟩ := planEdit_some st i j value p h
  intro hmem
  unfold idColsOf at hmem
  by_cases hrw : st.has_rowid
  · rw [if_pos hrw] at hmem
    have : p.col = "rowid" := by simpa using hmem
    rw [Bool.or_eq_false_iff, Bool.and_eq_false_iff] at hg
    rcases hg.1 with h1 | h2
    · rw [hrw] at h1; cases h1
    · rw [this] at h2; simp at h2
  · rw [if_neg hrw] at hmem
    rw [Bool.or_eq_false_iff] at hg
    have h2 : st.pk_columns.elem p.col = true := List.elem_eq_true_of_mem hmem
    have h3 : st.pk_columns.contains p.col = true := h2
    rw [hg.2] at h3
    cases h3

/-- C1: for every table with a usable row identity and every
successful `setCell` edit, performing `undo` immediately afterwards
restores the store to its exact prior state — in particular the
edited cell gets its prior value back, including a prior null. The
hypotheses say the edit addressed a valid cell and that the rows
matching the captured identity values actually carried the old value
under an existing column key (which is what a freshly refreshed
snapshot of a table with a usable identity guarantees). -/
theorem setCell_undo_roundtrip (st : EngineState) (i j : Nat) (v : String)
    (st' : EngineState) (col : String) (row : Row)
    (hcol : st.headers.get? j = some col)
    (hrow : st.rows.get? i = some row)
    (hold : ∀ r ∈ st.db.rows,
      rowMatches r (idColsOf st) ((idColsOf st).map (rowGet row)) = true →
      rowGet r col = rowGet row col)
    (hkey : ∀ r ∈ st.db.rows,
      rowMatches r (idColsOf st) ((idColsOf st).map (rowGet row)) = true →
      rowHasKey r col = true)
    (h : setData st i j v = (true, st')) :
    (undoStep st').db = st.db := by
  obtain ⟨p, hp, hap⟩ := setData_true st i j v st' h
  obtain ⟨hc, hr, hg, hidc, hidv, hold', hco, hpe, hri⟩ :=
    planEdit_some st i j v p hp
  have hcolp : col = p.col := Option.some.inj (hcol.symm.trans hc)
  have hrowp : row = p.row := Option.some.inj (hrow.symm.trans hr)
  subst hcolp
  subst hrowp
  have hnotid : p.col ∉ p.idCols := by
    rw [hidc]; exact planEdit_col_not_id st i j v p hp
  have hold2 : ∀ r ∈ st.db.rows,
      rowMatches r p.idCols p.idVals = true → rowGet r p.col = p.old := by
    intro r hrm hm
    rw [hold']
    exact hold r hrm (by rw [← hidv, ← hidc]; exact hm)
  have hkey2 : ∀ r ∈ st.db.rows,
      rowMatches r p.idCols p.idVals = true → rowHasKey r p.col = true := by
    intro r hrm hm
    exact hkey r hrm (by rw [← hidv, ← hidc]; exact hm)
  subst hap
  have hstack : (applyEdit st p).undo_stack =
      st.undo_stack ++
        [⟨Stmt.update st.table p.col p.idCols, Stmt.update st.table p.col p.idCols,
          p.old :: p.idVals, p.newv :: p.idVals⟩] := rfl
  have hlast : (applyEdit st p).undo_stack.getLast? =
      some ⟨Stmt.update st.table p.col p.idCols, Stmt.update st.table p.col p.idCols,
        p.old :: p.idVals, p.newv :: p.idVals⟩ := by
    rw [hstack, List.getLast?_concat]
  unfold undoStep
  rw [hlast]
  have hdb : (applyEdit st p).db =
      runStmt st.db (Stmt.update st.table p.col p.idCols) (p.newv :: p.idVals) := rfl
  simp only [hdb]
  exact update_cancel st.db st.table p.col p.idCols p.idVals p.old p.newv
    hnotid hold2 hkey2

/-- Concrete rowid-table row holding a null cell. -/
def exRowC1 : Row := [("rowid", SQLValue.intV 1), ("a", SQLValue.null)]

/-- Concrete loaded engine state: rowid table `t` with integer column
`a`, one row whose `a` is null, empty history. -/
def exStC1 : EngineState :=
  { table := "t", has_rowid := true, pk_columns := [],
    schema := [("a", "INTEGER")], headers := ["rowid", "a"],
    rows := [exRowC1], db := ⟨["a"], [exRowC1]⟩,
    undo_stack := [], redo_stack := [] }

/-- Witness for C1: editing the null cell to `7` succeeds and the
immediate undo restores the store, null value included. -/
theorem setCell_undo_roundtrip_witness :
    (setData exStC1 0 1 "7").1 = true ∧
    (undoStep (setData exStC1 0 1 "7").2).db = exStC1.db :=
  ⟨by decide,
   setCell_undo_roundtrip exStC1 0 1 "7" (setData exStC1 0 1 "7").2 "a" exRowC1
     (by decide) (by decide) (by decide) (by decide) (by decide)⟩

/-- C9: `setCell` on any column that is part of the resolved row
identity — the implicit rowid column of a rowid table, or any
declared primary-key column — returns false and leaves the whole
state untouched: no statement reaches the store, the snapshot is
unchanged, and nothing is pushed to the command log. -/
theorem setCell_identity_gated (st : EngineState) (i j : Nat) (v : String)
    (col : String)
    (hcol : st.headers.get? j = some col)
    (hid : (st.has_rowid = true ∧ col = "rowid") ∨ col ∈ st.pk_columns) :
    setData st i j v = (false, st) := by
  have hgbool :
      ((st.has_rowid && col == "rowid") || st.pk_columns.contains col) = true := by
    rcases hid with ⟨h1, h2⟩ | hmem
    · subst h2; simp [h1]
    · have hc : st.pk_columns.contains col = true := List.elem_eq_true_of_mem hmem
      rw [hc, Bool.or_true]
  have hplan : planEdit st i j v = none := by
    unfold planEdit
    rw [hcol]
    simp only [Option.some_bind]
    cases hr : st.rows.get? i with
    | none => simp
    | some row =>
        simp only [Option.some_bind]
        rw [if_pos hgbool]
  unfold setData
  rw [hplan]

/-- Primary-key table (no rowid): `id INTEGER PRIMARY KEY`-style
identity via declared column. -/
def exStPk : EngineState :=
  { table := "t", has_rowid := false, pk_columns := ["id"],
    schema := [("id", "INTEGER"), ("name", "TEXT")],
    headers := ["id", "name"],
    rows := [[("id", SQLValue.intV 1), ("name", SQLValue.textV "a")]],
    db := ⟨["id", "name"], [[("id", SQLValue.intV 1), ("name", SQLValue.textV "a")]]⟩,
    undo_stack := [], redo_stack := [] }

/-- Witness for C9: editing the rowid cell of a rowid table and the
primary-key cell of a PK table both return false with no state
change. -/
theorem setCell_identity_gated_witness :
    setData exStC1 0 0 "9" = (false, exStC1) ∧
    setData exStPk 0 0 "9" = (false, exStPk) :=
  ⟨setCell_identity_gated exStC1 0 0 "9" "rowid" (by decide) (Or.inl ⟨rfl, rfl⟩),
   setCell_identity_gated exStPk 0 0 "9" "id" (by decide) (Or.inr (by decide))⟩

/-- C10: `setCell` coerces the edited string by the column's declared
type affinity — a case-insensitive `NULL` token (or the `<NULL>`
display form) becomes the null value, integer affinity parses a whole
number, real affinity parses a floating value, anything else stays
text — and a coercion failure (`TypeMismatch`) makes `setCell` return
false with the snapshot, the store and the command log all exactly as
before. -/
theorem setCell_type_affinity :
    (∀ (st : EngineState) (i j : Nat) (v : String) (col : String),
      st.headers.get? j = some col →
      coerce (colTypeOf st col) v = none →
      setData st i j v = (false, st))
    ∧ (∀ ct v : String,
      (strUpper v == "<NULL>" || strUpper v == "NULL") = true →
      coerce ct v = some SQLValue.null)
    ∧ (∀ (ct v : String) (n : Int),
      (strUpper v == "<NULL>" || strUpper v == "NULL") = false →
      (strContains ct "INTEGER" || strContains ct "INT") = true →
      pyInt v = some n →
      coerce ct v = some (SQLValue.intV n))
    ∧ (∀ ct v : String,
      (strUpper v == "<NULL>" || strUpper v == "NULL") = false →
      (strContains ct "INTEGER" || strContains ct "INT") = true →
      pyInt v = none →
      coerce ct v = none)
    ∧ (∀ (ct v : String) (m : Int × Nat),
      (strUpper v == "<NULL>" || strUpper v == "NULL") = false →
      (strContains ct "INTEGER" || strContains ct "INT") = false →
      (strContains ct "REAL" || strContains ct "FLOAT") = true →
      pyFloat v = some m →
      coerce ct v = some (SQLValue.realV m.1 m.2))
    ∧ (∀ ct v : String,
      (strUpper v == "<NULL>" || strUpper v == "NULL") = false →
      (strContains ct "INTEGER" || strContains ct "INT") = false →
      (strContains ct "REAL" || strContains ct "FLOAT") = false →
      coerce ct v = some (SQLValue.textV v)) := by
  refine ⟨?_, ?_, ?_, ?_, ?_, ?_⟩
  · intro st i j v col hcol hco
    have hplan : planEdit st i j v = none := by
      unfold planEdit
      rw [hcol]
      simp only [Option.some_bind]
      cases hr : st.rows.get? i with
      | none => simp
      | some row =>
          simp only [Option.some_bind]
          by_cases hg :
              ((st.has_rowid && col == "rowid") || st.pk_columns.contains col) = true
          · rw [if_pos hg]
          · rw [if_neg hg, hco]
            rfl
    unfold setData
    rw [hplan]
  · intro ct v hnull
    unfold coerce
    rw [if_pos hnull]
  · intro ct v n hnull hint hpi
    unfold coerce
    rw [if_neg (by simp [hnull]), if_pos hint, hpi]
  · intro ct v hnull hint hpi
    unfold coerce
    rw [if_neg (by simp [hnull]), if_pos hint, hpi]
  · intro ct v m hnull hint hreal hpf
    unfold coerce
    rw [if_neg (by simp [hnull]), if_neg (by simp [hint]), if_pos hreal, hpf]
  · intro ct v hnull hint hreal
    unfold coerce
    rw [if_neg (by simp [hnull]), if_neg (by simp [hint]), if_neg (by simp [hreal])]

/-- Witness for C10: `"abc"` on the integer column fails and changes
nothing; the coercion branches evaluate as claimed on concrete
inputs. -/
theorem setCell_type_affinity_witness :
    setData exStC1 0 1 "abc" = (false, exStC1) ∧
    coerce "INTEGER" "NuLl" = some SQLValue.null ∧
    coerce "INTEGER" "42" = some (SQLValue.intV 42) ∧
    coerce "INTEGER" "abc" = none ∧
    coerce "REAL" "1.5" = some (SQLValue.realV 15 1) ∧
    coerce "TEXT" "abc" = some (SQLValue.textV "abc") :=
  ⟨setCell_type_affinity.1 exStC1 0 1 "abc" "a" (by decide) (by decide),
   setCell_type_affinity.2.1 "INTEGER" "NuLl" (by decide),
   setCell_type_affinity.2.2.1 "INTEGER" "42" 42 (by decide) (by decide) (by decide),
   setCell_type_affinity.2.2.2.1 "INTEGER" "abc" (by decide) (by decide) (by decide),
   setCell_type_affinity.2.2.2.2.1 "REAL" "1.5" (15, 1) (by decide) (by decide)
     (by decide) (by decide),
   setCell_type_affinity.2.2.2.2.2 "TEXT" "abc" (by decide) (by decide) (by decide)⟩

/-- C3 (part): after a successful `setCell` the command log's redo
stack has been cleared by the push, so an immediately following
`redo` finds an empty redo stack, reports only "Nothing to redo", and
executes no statement: the state is unchanged. The preceding `undo`
of the claim's scenario is the `undoStep` inside the hypothesis. -/
theorem undo_push_then_redo_empty (st : EngineState) (i j : Nat) (v : String)
    (st' : EngineState)
    (h : setData (undoStep st) i j v = (true, st')) :
    st'.redo_stack = [] ∧ redoStep st' = st' := by
  obtain ⟨p, hp, hap⟩ := setData_true (undoStep st) i j v st' h
  subst hap
  exact ⟨rfl, rfl⟩

/-- Command whose undo writes 5 back into column `a` of row 1. -/
def exCmd : Command :=
  ⟨Stmt.update "t" "a" ["rowid"], Stmt.update "t" "a" ["rowid"],
   [SQLValue.intV 5, SQLValue.intV 1], [SQLValue.intV 7, SQLValue.intV 1]⟩

/-- Engine state with one undoable command in the log. -/
def exSt3 : EngineState :=
  { table := "t", has_rowid := true, pk_columns := [],
    schema := [("a", "INTEGER")], headers := ["rowid", "a"],
    rows := [[("rowid", SQLValue.intV 1), ("a", SQLValue.intV 7)]],
    db := ⟨["a"], [[("rowid", SQLValue.intV 1), ("a", SQLValue.intV 7)]]⟩,
    undo_stack := [exCmd], redo_stack := [] }

/-- Witness for C3: undo, then a successful `setCell`, then `redo`:
the redo stack is empty and the redo is a no-op. -/
theorem undo_push_then_redo_empty_witness :
    (setData (undoStep exSt3) 0 1 "9").1 = true ∧
    (setData (undoStep exSt3) 0 1 "9").2.redo_stack = [] ∧
    redoStep (setData (undoStep exSt3) 0 1 "9").2 =
      (setData (undoStep exSt3) 0 1 "9").2 :=
  ⟨by decide,
   (undo_push_then_redo_empty exSt3 0 1 "9" _ (by decide)).1,
   (undo_push_then_redo_empty exSt3 0 1 "9" _ (by decide)).2⟩

theorem pushCmd_foldl (cs : List Command) (st : EngineState) :
    (cs.foldl pushCmd st).undo_stack = st.undo_stack ++ cs ∧
    (cs.foldl pushCmd st).redo_stack =
      (if cs.isEmpty then st.redo_stack else []) := by
  induction cs generalizing st with
  | nil => simp
  | cons c cs ih =>
      simp only [List.foldl_cons]
      obtain ⟨h1, h2⟩ := ih (pushCmd st c)
      refine ⟨?_, ?_⟩
      · rw [h1]; simp [pushCmd]
      · rw [h2]; cases cs <;> simp [pushCmd]

theorem undoStep_lengths (st : EngineState) (h : st.undo_stack ≠ []) :
    (undoStep st).undo_stack.length = st.undo_stack.length - 1 ∧
    (undoStep st).redo_stack.length = st.redo_stack.length + 1 := by
  unfold undoStep
  cases hl : st.undo_stack.getLast? with
  | none =>
      have := List.getLast?_isSome.mpr h
      rw [hl] at this
      cases this
  | some c => simp

theorem redoStep_lengths (st : EngineState) (h : st.redo_stack ≠ []) :
    (redoStep st).redo_stack.length = st.redo_stack.length - 1 ∧
    (redoStep st).undo_stack.length = st.undo_stack.length + 1 := by
  unfold redoStep
  cases hl : st.redo_stack.getLast? with
  | none =>
      have := List.getLast?_isSome.mpr h
      rw [hl] at this
      cases this
  | some c => simp

theorem undo_iterate_lengths (M : Nat) :
    ∀ st : EngineState, M ≤ st.undo_stack.length →
    ((undoStep^[M]) st).undo_stack.length = st.undo_stack.length - M ∧
    ((undoStep^[M]) st).redo_stack.length = st.redo_stack.length + M := by
  induction M with
  | zero => intro st _; simp
  | succ M ih =>
      intro st h
      rw [Function.iterate_succ_apply]
      have hne : st.undo_stack ≠ [] := by
        intro he; rw [he] at h; simp at h
      obtain ⟨h1, h2⟩ := undoStep_lengths st hne
      have hpos : 0 < st.undo_stack.length := List.length_pos.mpr hne
      obtain ⟨ih1, ih2⟩ := ih (undoStep st) (by rw [h1]; omega)
      refine ⟨?_, ?_⟩
      · rw [ih1, h1]; omega
      · rw [ih2, h2]; omega

theorem redo_iterate_lengths (K : Nat) :
    ∀ st : EngineState, K ≤ st.redo_stack.length →
    ((redoStep^[K]) st).redo_stack.length = st.redo_stack.length - K ∧
    ((redoStep^[K]) st).undo_stack.length = st.undo_stack.length + K := by
  induction K with
  | zero => intro st _; simp
  | succ K ih =>
      intro st h
      rw [Function.iterate_succ_apply]
      have hne : st.redo_stack ≠ [] := by
        intro he; rw [he] at h; simp at h
      obtain ⟨h1, h2⟩ := redoStep_lengths st hne
      have hpos : 0 < st.redo_stack.length := List.length_pos.mpr hne
      obtain ⟨ih1, ih2⟩ := ih (redoStep st) (by rw [h1]; omega)
      refine ⟨?_, ?_⟩
      · rw [ih1, h1]; omega
      · rw [ih2, h2]; omega

/-- C2: from an empty log, after N pushes, M ≤ N undos and K ≤ M
redos the undo stack holds exactly N − M + K commands and the redo
stack exactly M − K; moreover each undo (resp. redo) on a non-empty
stack moves exactly one command to the other stack and preserves the
total count. -/
theorem history_conservation :
    (∀ (cs : List Command) (M K : Nat) (st0 : EngineState),
      st0.undo_stack = [] → st0.redo_stack = [] →
      M ≤ cs.length → K ≤ M →
      ((redoStep^[K]) ((undoStep^[M]) (cs.foldl pushCmd st0))).undo_stack.length
          = cs.length - M + K ∧
      ((redoStep^[K]) ((undoStep^[M]) (cs.foldl pushCmd st0))).redo_stack.length
          = M - K)
    ∧ (∀ st : EngineState, st.undo_stack ≠ [] →
      (undoStep st).undo_stack.length + 1 = st.undo_stack.length ∧
      (undoStep st).redo_stack.length = st.redo_stack.length + 1 ∧
      (undoStep st).undo_stack.length + (undoStep st).redo_stack.length
          = st.undo_stack.length + st.redo_stack.length)
    ∧ (∀ st : EngineState, st.redo_stack ≠ [] →
      (redoStep st).redo_stack.length + 1 = st.redo_stack.length ∧
      (redoStep st).undo_stack.length = st.undo_stack.length + 1 ∧
      (redoStep st).undo_stack.length + (redoStep st).redo_stack.length
          = st.undo_stack.length + st.redo_stack.length) := by
  refine ⟨?_, ?_, ?_⟩
  · intro cs M K st0 hu0 hr0 hM hK
    obtain ⟨hf1, hf2⟩ := pushCmd_foldl cs st0
    have hulen : (cs.foldl pushCmd st0).undo_stack.length = cs.length := by
      rw [hf1, hu0]; simp
    have hrlen : (cs.foldl pushCmd st0).redo_stack.length = 0 := by
      rw [hf2]
      cases cs <;> simp [hr0]
    obtain ⟨hu1, hu2⟩ := undo_iterate_lengths M (cs.foldl pushCmd st0)
      (by rw [hulen]; exact hM)
    obtain ⟨hr1, hr2⟩ := redo_iterate_lengths K ((undoStep^[M]) (cs.foldl pushCmd st0))
      (by rw [hu2, hrlen]; omega)
    refine ⟨?_, ?_⟩
    · rw [hr2, hu1, hulen]
    · rw [hr1, hu2, hrlen]; omega
  · intro st h
    obtain ⟨h1, h2⟩ := undoStep_lengths st h
    have hpos : 0 < st.undo_stack.length := List.length_pos.mpr h
    exact ⟨by omega, h2, by omega⟩
  · intro st h
    obtain ⟨h1, h2⟩ := redoStep_lengths st h
    have hpos : 0 < st.redo_stack.length := List.length_pos.mpr h
    exact ⟨by omega, h2, by omega⟩

/-- Witness for C2: two pushes, two undos, one redo starting from the
empty log leave 2 − 2 + 1 = 1 undoable and 2 − 1 = 1 redoable
command; the single-step clauses hold at concrete non-empty stacks. -/
theorem history_conservation_witness :
    (((redoStep^[1]) ((undoStep^[2]) ([exCmd, exCmd].foldl pushCmd exStC1))).undo_stack.length
        = [exCmd, exCmd].length - 2 + 1 ∧
     ((redoStep^[1]) ((undoStep^[2]) ([exCmd, exCmd].foldl pushCmd exStC1))).redo_stack.length
        = 2 - 1) ∧
    ((undoStep exSt3).undo_stack.length + 1 = exSt3.undo_stack.length ∧
     (undoStep exSt3).redo_stack.length = exSt3.redo_stack.length + 1 ∧
     (undoStep exSt3).undo_stack.length + (undoStep exSt3).redo_stack.length
        = exSt3.undo_stack.length + exSt3.redo_stack.length) ∧
    ((redoStep (undoStep exSt3)).redo_stack.length + 1
        = (undoStep exSt3).redo_stack.length ∧
     (redoStep (undoStep exSt3)).undo_stack.length
        = (undoStep exSt3).undo_stack.length + 1 ∧
     (redoStep (undoStep exSt3)).undo_stack.length +
        (redoStep (undoStep exSt3)).redo_stack.length
        = (undoStep exSt3).undo_stack.length + (undoStep exSt3).redo_stack.length) :=
  ⟨history_conservation.1 [exCmd, exCmd] 2 1 exStC1 rfl rfl (by decide) (by decide),
   history_conservation.2.1 exSt3 (by decide),
   history_conservation.2.2 (undoStep exSt3) (by decide)⟩

/-- Whether a row carries an integer rowid, as every row of a rowid
table read through `SELECT rowid, *` does. -/
def hasIntRowid (r : Row) : Bool :=
  match rowGet r "rowid" with
  | SQLValue.intV _ => true
  | _ => false

theorem le_maxRowid (rows : List Row) (r : Row) (hr : r ∈ rows) (k : Int)
    (hk : rowGet r "rowid" = SQLValue.intV k) : k ≤ maxRowid rows := by
  induction rows with
  | nil => cases hr
  | cons a t ih =>
      unfold maxRowid
      simp only [List.foldr_cons]
      rcases List.mem_cons.mp hr with h | h
      · subst h
        rw [hk]
        exact le_max_of_le_right le_rfl
      · exact le_max_of_le_left (ih h)

/-- Cancellation law for the add-row command: a default-values insert
followed by a delete keyed by the rowid the insert allocated restores
the store exactly, provided the existing rows are rowid-table rows
(integer rowids). -/
theorem insert_delete_cancel (td : TableData) (tbl tbl' : String)
    (hwf : ∀ r ∈ td.rows, hasIntRowid r = true) :
    runStmt (runStmt td (Stmt.insertDefault tbl) [])
      (Stmt.delete tbl' ["rowid"]) [SQLValue.intV (nextRowid td.rows)] = td := by
  cases td with
  | mk cols rows =>
      simp only [runStmt]
      congr 1
      rw [List.filter_append]
      have hfresh :
          List.filter
            (fun r => !(rowMatches r ["rowid"] [SQLValue.intV (nextRowid rows)]))
            [("rowid", SQLValue.intV (nextRowid rows)) ::
              cols.map (fun c => (c, SQLValue.null))] = [] := by
        simp only [List.filter, rowMatches, rowGet,
          alistGet_cons_eq "rowid" "rowid" _ _ rfl, Option.getD_some, sqlEq]
        simp [numEq]
      have hkeep :
          List.filter
            (fun r => !(rowMatches r ["rowid"] [SQLValue.intV (nextRowid rows)]))
            rows = rows := by
        apply List.filter_eq_self.mpr
        intro r hr
        have hw := hwf r hr
        unfold hasIntRowid at hw
        cases hg : rowGet r "rowid" with
        | intV k =>
            have hle := le_maxRowid rows r hr k hg
            have hm : rowMatches r ["rowid"] [SQLValue.intV (nextRowid rows)]
                = false := by
              simp only [rowMatches, sqlEq, hg, nextRowid, Bool.and_true]
              simp only [beq_eq_false_iff_ne, ne_eq]
              omega
            simp [hm]
        | null => rw [hg] at hw; cases hw
        | realV m s => rw [hg] at hw; cases hw
        | textV s => rw [hg] at hw; cases hw
      rw [hfresh, hkeep, List.append_nil]

/-- C4: round-trip law for every command the code records in the log.
A `setCell` command (forward: UPDATE to the new value, inverse:
UPDATE back to the old value) restores the store it was created
against, provided the rows matching the captured identity values held
the old value (the state the command was built from); the `addRow`
command (forward: default-values insert, inverse: delete keyed by the
rowid captured immediately after the insert) restores any well-formed
rowid-table store. -/
theorem command_roundtrip :
    (∀ (st : EngineState) (i j : Nat) (v : String) (st' : EngineState)
       (col : String) (row : Row) (cmd : Command),
      st.headers.get? j = some col →
      st.rows.get? i = some row →
      (∀ r ∈ st.db.rows,
        rowMatches r (idColsOf st) ((idColsOf st).map (rowGet row)) = true →
        rowGet r col = rowGet row col) →
      (∀ r ∈ st.db.rows,
        rowMatches r (idColsOf st) ((idColsOf st).map (rowGet row)) = true →
        rowHasKey r col = true) →
      setData st i j v = (true, st') →
      st'.undo_stack.getLast? = some cmd →
      runStmt (runStmt st.db cmd.redo_sql cmd.redo_params)
        cmd.undo_sql cmd.undo_params = st.db)
    ∧ (∀ (st : EngineState) (cmd : Command),
      st.has_rowid = true →
      (∀ r ∈ st.db.rows, hasIntRowid r = true) →
      (addRow st).undo_stack.getLast? = some cmd →
      runStmt (runStmt st.db cmd.redo_sql cmd.redo_params)
        cmd.undo_sql cmd.undo_params = st.db) := by
  constructor
  · intro st i j v st' col row cmd hcol hrow hold hkey h hlast
    obtain ⟨p, hp, hap⟩ := setData_true st i j v st' h
    obtain ⟨hc, hr, hg, hidc, hidv, hold', hco, hpe, hri⟩ :=
      planEdit_some st i j v p hp
    have hcolp : col = p.col := Option.some.inj (hcol.symm.trans hc)
    have hrowp : row = p.row := Option.some.inj (hrow.symm.trans hr)
    subst hcolp
    subst hrowp
    subst hap
    have hstack : (applyEdit st p).undo_stack =
        st.undo_stack ++
          [⟨Stmt.update st.table p.col p.idCols, Stmt.update st.table p.col p.idCols,
            p.old :: p.idVals, p.newv :: p.idVals⟩] := rfl
    rw [hstack, List.getLast?_concat] at hlast
    have hcmd := Option.some.inj hlast
    subst hcmd
    have hnotid : p.col ∉ p.idCols := by
      rw [hidc]; exact planEdit_col_not_id st i j v p hp
    have hold2 : ∀ r ∈ st.db.rows,
        rowMatches r p.idCols p.idVals = true → rowGet r p.col = p.old := by
      intro r hrm hm
      rw [hold']
      exact hold r hrm (by rw [← hidv, ← hidc]; exact hm)
    have hkey2 : ∀ r ∈ st.db.rows,
        rowMatches r p.idCols p.idVals = true → rowHasKey r p.col = true := by
      intro r hrm hm
      exact hkey r hrm (by rw [← hidv, ← hidc]; exact hm)
    exact update_cancel st.db st.table p.col p.idCols p.idVals p.old p.newv
      hnotid hold2 hkey2
  · intro st cmd hrw hwf hlast
    have hstack : (addRow st).undo_stack =
        st.undo_stack ++
          [⟨Stmt.delete st.table ["rowid"], Stmt.insertDefault st.table,
            [SQLValue.intV (nextRowid st.db.rows)], []⟩] := by
      unfold addRow
      rw [if_pos hrw]
      rfl
    rw [hstack, List.getLast?_concat] at hlast
    have hcmd := Option.some.inj hlast
    subst hcmd
    exact insert_delete_cancel st.db st.table st.table hwf

/-- Witness for C4: the command pushed by the concrete `setCell` edit
and the command pushed by a concrete `addRow` both satisfy the
forward-then-inverse round trip. -/
theorem command_roundtrip_witness :
    runStmt (runStmt exStC1.db
        (Stmt.update "t" "a" ["rowid"]) [SQLValue.intV 7, SQLValue.intV 1])
      (Stmt.update "t" "a" ["rowid"]) [SQLValue.null, SQLValue.intV 1] = exStC1.db ∧
    runStmt (runStmt exStC1.db (Stmt.insertDefault "t") [])
      (Stmt.delete "t" ["rowid"]) [SQLValue.intV 2] = exStC1.db :=
  ⟨command_roundtrip.1 exStC1 0 1 "7" (setData exStC1 0 1 "7").2 "a" exRowC1
      ⟨Stmt.update "t" "a" ["rowid"], Stmt.update "t" "a" ["rowid"],
        [SQLValue.null, SQLValue.intV 1], [SQLValue.intV 7, SQLValue.intV 1]⟩
      (by decide) (by decide) (by decide) (by decide) (by decide) (by decide),
   command_roundtrip.2 exStC1
      ⟨Stmt.delete "t" ["rowid"], Stmt.insertDefault "t", [SQLValue.intV 2], []⟩
      rfl (by decide) (by decide)⟩

/-- C5 counterexample: the claim says a table with no declared
primary key and no implicit identifier can still be loaded and edited
cell-wise; in the code `SQLiteTableModel.__init__` raises
`ValueError` on exactly that table, so it can be neither loaded,
viewed, edited nor deleted from — identity resolution is not total. -/
theorem modelInit_no_identity_raises :
    modelInit false [] =
      Except.error "has no rowid or primary key; cannot edit safely" := rfl

/-- C5 amended: identity resolution at model construction succeeds
exactly when the table has a rowid or at least one declared
primary-key column; a table with neither is rejected with an error at
load time, so `setCell` and row deletion on such a table are
unreachable rather than partially supported. -/
theorem modelInit_ok_iff (has_rowid : Bool) (pk_columns : List String) :
    (modelInit has_rowid pk_columns).isOk = true ↔
      (has_rowid = true ∨ pk_columns ≠ []) := by
  cases has_rowid with
  | false =>
      cases pk_columns with
      | nil => simp [modelInit, Except.isOk, Except.toBool]
      | cons c t => simp [modelInit, Except.isOk, Except.toBool]
  | true => simp [modelInit, Except.isOk, Except.toBool]

/-- Application state holding history recorded against database
`a.db`. -/
def exApp : AppState :=
  { dbPath := some "a.db", tableNames := ["t"],
    undo_stack := [exCmd], redo_stack := [exCmd] }

/-- C6: the claim (and the spec's stated requirement) is that opening
a database clears both history stacks; `MainWindow.open_db` replaces
the connection and repopulates the table list but never touches the
shared `UndoRedoManager`, so after switching to `b.db` the command
recorded against `a.db` is still sitting on both stacks, ready to be
replayed against the wrong database. -/
theorem open_db_keeps_history :
    (open_db exApp "b.db" []).dbPath = some "b.db" ∧
    (open_db exApp "b.db" []).undo_stack = [exCmd] ∧
    (open_db exApp "b.db" []).redo_stack = [exCmd] :=
  ⟨rfl, rfl, rfl⟩

theorem alistGet_append_of_some {α : Type} (l1 l2 : List (String × α))
    (k : String) (v : α) (h : alistGet l1 k = some v) :
    alistGet (l1 ++ l2) k = some v := by
  induction l1 with
  | nil => rw [alistGet_nil] at h; cases h
  | cons p t ih =>
      obtain ⟨k', w⟩ := p
      by_cases hk : k' = k
      · rw [alistGet_cons_eq k' k w t hk] at h
        rw [List.cons_append, alistGet_cons_eq k' k w (t ++ l2) hk]
        exact h
      · rw [alistGet_cons_ne k' k w t hk] at h
        rw [List.cons_append, alistGet_cons_ne k' k w (t ++ l2) hk]
        exact ih h

theorem lookupTable_setTableRows_ne (db : SchemaDb) (x t : String)
    (rows : List Row) (h : t ≠ x) :
    lookupTable (setTableRows db x rows) t = lookupTable db t := by
  induction db with
  | nil => rfl
  | cons p tl ih =>
      obtain ⟨k, v⟩ := p
      by_cases hk : k = x
      · subst hk
        have hs : setTableRows ((k, v) :: tl) k rows
            = (k, { v with rows := rows }) :: setTableRows tl k rows := by
          unfold setTableRows
          simp
        rw [hs]
        have hkt : k ≠ t := fun he => h (he.symm.trans rfl)
        unfold lookupTable
        rw [alistGet_cons_ne k t _ (setTableRows tl k rows) hkt,
          alistGet_cons_ne k t v tl hkt]
        exact ih
      · have hs : setTableRows ((k, v) :: tl) x rows
            = (k, v) :: setTableRows tl x rows := by
          unfold setTableRows
          simp [hk]
        rw [hs]
        by_cases hkt : k = t
        · unfold lookupTable
          rw [alistGet_cons_eq k t v (setTableRows tl x rows) hkt,
            alistGet_cons_eq k t v tl hkt]
        · unfold lookupTable
          rw [alistGet_cons_ne k t v (setTableRows tl x rows) hkt,
            alistGet_cons_ne k t v tl hkt]
          exact ih

theorem lookupTable_dropTable_self (db : SchemaDb) (t : String) :
    lookupTable (dropTableDb db t) t = none := by
  induction db with
  | nil => rfl
  | cons p tl ih =>
      obtain ⟨k, v⟩ := p
      by_cases hk : k = t
      · have hs : dropTableDb ((k, v) :: tl) t = dropTableDb tl t := by
          unfold dropTableDb
          simp [List.filter_cons, hk]
        rw [hs]
        exact ih
      · have hs : dropTableDb ((k, v) :: tl) t = (k, v) :: dropTableDb tl t := by
          unfold dropTableDb
          simp [List.filter_cons, hk]
        rw [hs]
        unfold lookupTable
        rw [alistGet_cons_ne k t v (dropTableDb tl t) hk]
        exact ih

theorem string_ne_append_temp (t : String) : t ≠ t ++ "_temp" := by
  intro h
  have hl := congrArg String.length h
  rw [String.length_append] at hl
  have h5 : ("_temp" : String).length = 5 := rfl
  omega

/-- C7 amended: the drop-column rebuild has no rollback, only the
ordering of its statements: a failure at the create-temporary or
copy-rows step leaves the original table untouched under its name (at
worst an orphan temporary remains), and a failure at the drop step
likewise; but a failure at the final rename step strikes after the
original has already been dropped, so the original name is no longer
bound — the data survives only under the temporary name. -/
theorem delete_column_failure_effects (db : SchemaDb) (t c : String)
    (td : SchemaTable)
    (hlk : lookupTable db t = some td)
    (hcols : (td.cols.filter (fun p => !(p.1 == c))).isEmpty = false) :
    delete_column db t c (some DropStep.createTemp) = db ∧
    lookupTable (delete_column db t c (some DropStep.copyRows)) t = some td ∧
    lookupTable (delete_column db t c (some DropStep.dropOld)) t = some td ∧
    lookupTable (delete_column db t c (some DropStep.renameTemp)) t = none := by
  have hcols' : ¬((td.cols.filter (fun p => !(p.1 == c))).isEmpty = true) := by
    rw [hcols]; exact Bool.false_ne_true
  refine ⟨?_, ?_, ?_, ?_⟩
  · unfold delete_column
    simp only [hlk]
    rw [if_neg hcols',
      if_pos (show (some DropStep.createTemp == some DropStep.createTemp) = true
        from by decide)]
  · unfold delete_column
    simp only [hlk]
    rw [if_neg hcols',
      if_neg (show ¬((some DropStep.copyRows == some DropStep.createTemp) = true)
        from by decide),
      if_pos (show (some DropStep.copyRows == some DropStep.copyRows) = true
        from by decide)]
    exact alistGet_append_of_some db _ t td hlk
  · unfold delete_column
    simp only [hlk]
    rw [if_neg hcols',
      if_neg (show ¬((some DropStep.dropOld == some DropStep.createTemp) = true)
        from by decide),
      if_neg (show ¬((some DropStep.dropOld == some DropStep.copyRows) = true)
        from by decide),
      if_pos (show (some DropStep.dropOld == some DropStep.dropOld) = true
        from by decide)]
    rw [lookupTable_setTableRows_ne _ _ _ _ (string_ne_append_temp t)]
    exact alistGet_append_of_some db _ t td hlk
  · unfold delete_column
    simp only [hlk]
    rw [if_neg hcols',
      if_neg (show ¬((some DropStep.renameTemp == some DropStep.createTemp) = true)
        from by decide),
      if_neg (show ¬((some DropStep.renameTemp == some DropStep.copyRows) = true)
        from by decide),
      if_neg (show ¬((some DropStep.renameTemp == some DropStep.dropOld) = true)
        from by decide),
      if_pos (show (some DropStep.renameTemp == some DropStep.renameTemp) = true
        from by decide)]
    exact lookupTable_dropTable_self _ t

/-- Two-column table for the drop-column scenario. -/
def ex7td : SchemaTable :=
  ⟨[("a", "TEXT"), ("b", "TEXT")],
   [[("a", SQLValue.textV "x"), ("b", SQLValue.textV "y")]]⟩

/-- Database holding only that table, under the name `t`. -/
def ex7db : SchemaDb := [("t", ex7td)]

/-- C7 counterexample: the claim says a failure at the rename step
leaves the original table intact and usable under its original name;
in the code the original has already been dropped before the rename
runs, so after a rename-step failure no table named `t` exists. -/
theorem delete_column_rename_fail_loses_table :
    lookupTable ex7db "t" = some ex7td ∧
    lookupTable (delete_column ex7db "t" "b" (some DropStep.renameTemp)) "t"
      = none := by
  refine ⟨rfl, ?_⟩
  decide

/-- Witness for the amended C7: the step-by-step failure effects at
the concrete two-column table. -/
theorem delete_column_failure_effects_witness :
    delete_column ex7db "t" "b" (some DropStep.createTemp) = ex7db ∧
    lookupTable (delete_column ex7db "t" "b" (some DropStep.copyRows)) "t"
      = some ex7td ∧
    lookupTable (delete_column ex7db "t" "b" (some DropStep.dropOld)) "t"
      = some ex7td ∧
    lookupTable (delete_column ex7db "t" "b" (some DropStep.renameTemp)) "t"
      = none :=
  delete_column_failure_effects ex7db "t" "b" ex7td rfl (by decide)

theorem leadsWith_append (b c : List Char) : leadsWith (b ++ c) b = true := by
  induction b with
  | nil => cases c <;> simp [leadsWith]
  | cons a as ih => simp [leadsWith, ih]

theorem hasSub_of_leadsWith (hay needle : List Char)
    (h : leadsWith hay needle = true) : hasSub hay needle = true := by
  cases hay with
  | nil => simpa [hasSub]
  | cons a t => simp [hasSub, h]

theorem hasSub_append_left (pre rest needle : List Char)
    (h : hasSub rest needle = true) : hasSub (pre ++ rest) needle = true := by
  induction pre with
  | nil => simpa
  | cons a t ih => simp [hasSub, ih]

theorem strContains_middle (pre mid suf : String) :
    strContains (pre ++ (mid ++ suf)) mid = true := by
  unfold strContains
  have h1 : (pre ++ (mid ++ suf)).toList
      = pre.toList ++ (mid.toList ++ suf.toList) := by
    simp [String.toList]
  rw [h1]
  exact hasSub_append_left _ _ _
    (hasSub_of_leadsWith _ _ (leadsWith_append mid.toList suf.toList))

/-- C8 counterexample: the claim says every interpolated identifier
is first validated against a strict allow-list (alphanumeric plus
underscore, non-empty, not a reserved word); `MainWindow.add_column`
only checks non-blankness, so the name
`x; DROP TABLE users` — rejected by the allow-list — is accepted and
lands verbatim in the executed statement text. -/
theorem add_column_accepts_invalid_identifier :
    add_column_guard "x; DROP TABLE users" "TEXT" = true ∧
    spec_valid_identifier "x; DROP TABLE users" = false ∧
    add_column_sql "t" "x; DROP TABLE users" "TEXT"
      = "ALTER TABLE t ADD COLUMN x; DROP TABLE users TEXT" := by
  refine ⟨by decide, by decide, ?_⟩
  rfl

/-- C8 amended: the engine's cell-edit statements carry values only
as bound parameters (the `Stmt` shape has no value slot, values
travel in the parameter lists), but identifiers are interpolated into
DDL statement text with no allow-list validation: any name passing
the blank check — including names the spec's pattern rejects —
appears verbatim in the built statement. -/
theorem identifier_interpolation_unvalidated :
    (∀ table name coltype : String,
      strContains (add_column_sql table name coltype) name = true) ∧
    (∀ name : String, strContains (add_table_sql name) name = true) ∧
    (∀ name coltype : String,
      add_column_guard name coltype = true ↔
        (strBlank name = false ∧ strBlank coltype = false)) ∧
    (∀ name : String, add_table_guard name = true ↔ strBlank name = false) := by
  refine ⟨?_, ?_, ?_, ?_⟩
  · intro table name coltype
    have hshape : add_column_sql table name coltype
        = ("ALTER TABLE " ++ table ++ " ADD COLUMN ") ++ (name ++ (" " ++ coltype)) := by
      unfold add_column_sql
      simp [String.append_assoc]
    rw [hshape]
    exact strContains_middle _ _ _
  · intro name
    have hshape : add_table_sql name
        = "CREATE TABLE " ++ (name ++ " (id INTEGER PRIMARY KEY)") := by
      unfold add_table_sql
      simp [String.append_assoc]
    rw [hshape]
    exact strContains_middle _ _ _
  · intro name coltype
    unfold add_column_guard
    cases hb1 : strBlank name <;> cases hb2 : strBlank coltype <;> simp
  · intro name
    unfold add_table_guard
    cases hb : strBlank name <;> simp

end ADE
